import Mathlib

/-!
Verification development for the lifxtui repository.

The definitions below are a shallow embedding of the device state store
(`src/lifx/store.ts`), the UDP transport wrapper (`src/lifx/client.ts`) and
the DJ effects engine (`src/lifx/effects.ts`).  JavaScript objects used as
string-keyed maps are embedded as association lists in key insertion order
(matching the enumeration order of `Object.keys` / `Object.values`);
`Array.prototype.sort` with a comparator is embedded as `List.insertionSort`
of the corresponding relation; `localeCompare` on labels is embedded as the
linear order on `String`.
-/

namespace LifxTui

/-- HSBK color value native to the LIFX protocol (`src/utils/colors.ts`). -/
structure HSBK where
  hue : Nat
  saturation : Nat
  brightness : Nat
  kelvin : Nat
deriving DecidableEq, Repr

/-- Device classification (`DeviceType` in `src/lifx/store.ts`). -/
inductive DeviceType where
  | light
  | switch
  | unknown
deriving DecidableEq, Repr

/-- Known LIFX Switch product ids (`SWITCH_PRODUCT_IDS` in `src/lifx/store.ts`). -/
def SWITCH_PRODUCT_IDS : List Nat := [70, 71, 89]

/-- The opaque device handle provided by the lifxlan library: a stable serial
number plus the current transport address (port/address).  `registerDevice`
stores the whole handle in the device record. -/
structure Device where
  serialNumber : String
  port : Nat
  address : String
deriving DecidableEq, Repr

/-- One record of the reactive store (`DeviceState` in `src/lifx/store.ts`). -/
structure DeviceState where
  serialNumber : String
  device : Device
  label : String
  group : String
  groupId : String
  power : Bool
  color : HSBK
  online : Bool
  selected : Bool
  lastSeen : Nat
  deviceType : DeviceType
  productId : Nat
deriving DecidableEq, Repr

/-- A group record (`GroupState` in `src/lifx/store.ts`). -/
structure GroupState where
  id : String
  label : String
  devices : List String
  expanded : Bool
deriving DecidableEq, Repr

/-- The whole store (`LifxStore` in `src/lifx/store.ts`).  The two records
`devices` and `groups` are JavaScript objects keyed by serial number and
group id; they are embedded as association lists in insertion order. -/
structure LifxStore where
  devices : List (String × DeviceState)
  groups : List (String × GroupState)
  selectedDevices : List String
  isScanning : Bool
deriving DecidableEq, Repr

/-- Lookup in a string-keyed association list (JavaScript `obj[key]`). -/
def lookupA {α : Type} : List (String × α) → String → Option α
  | [], _ => none
  | (k, v) :: rest, key => if k = key then some v else lookupA rest key

/-- Update the entry at `key`, if present (Solid `setStore` on an existing
nested path).  All uses in the source hit existing keys. -/
def updateA {α : Type} : List (String × α) → String → (α → α) → List (String × α)
  | [], _, _ => []
  | (k, v) :: rest, key, f =>
      if k = key then (k, f v) :: rest else (k, v) :: updateA rest key f

/-- `setStore('devices', sn, field, value)`: update one device record. -/
def setDev (st : LifxStore) (sn : String) (f : DeviceState → DeviceState) : LifxStore :=
  { st with devices := updateA st.devices sn f }

/-- `setStore('groups', gid, field, value)`: update one group record. -/
def setGroupA (st : LifxStore) (gid : String) (f : GroupState → GroupState) : LifxStore :=
  { st with groups := updateA st.groups gid f }

/-! ### The four sub-query results of one refresh cycle

`queryDeviceState` issues four queries through `Promise.allSettled`.  Each
settled sub-query is embedded as an `Option`: `some` for a fulfilled promise
whose value is used, `none` for a rejected one.  Note that
`Promise.allSettled` itself never rejects, so the `try` body of
`queryDeviceState` (embedded below as `queryDeviceStateApply`) runs to
completion for every refresh cycle, whatever the four outcomes are; the
`catch` branch that sets `online := false` is unreachable on sub-query
failure. -/

/-- Body of a fulfilled `GetColorCommand` reply (a `LightState`). -/
structure ColorResult where
  hue : Nat
  saturation : Nat
  brightness : Nat
  kelvin : Nat
  power : Option Nat
deriving DecidableEq, Repr

/-- Body of a fulfilled `GetGroupCommand` reply: group id and label. -/
structure GroupResult where
  group : String
  label : String
deriving DecidableEq, Repr

/-- Body of a fulfilled `GetVersionCommand` reply. -/
structure VersionResult where
  product : Option Nat
deriving DecidableEq, Repr

/-- Lines 70-81 of `store.ts`: product id and device classification. -/
def applyVersion (st : LifxStore) (sn : String) : Option VersionResult → LifxStore
  | none => st
  | some v =>
    let productId := v.product.getD 0
    let st1 := setDev st sn (fun d => { d with productId := productId })
    if productId ∈ SWITCH_PRODUCT_IDS then
      setDev st1 sn (fun d => { d with deviceType := DeviceType.switch })
    else
      setDev st1 sn (fun d => { d with deviceType := DeviceType.light })

/-- Lines 85-92 of `store.ts`: color, and power when the reply carries it
(`power > 0` in the source; power is `0` or `65535` on the wire). -/
def applyColor (st : LifxStore) (sn : String) : Option ColorResult → LifxStore
  | none => st
  | some c =>
    let st1 := setDev st sn
      (fun d => { d with color := ⟨c.hue, c.saturation, c.brightness, c.kelvin⟩ })
    match c.power with
    | some p => setDev st1 sn (fun d => { d with power := decide (0 < p) })
    | none => st1

/-- Lines 94-96 of `store.ts`.  A fulfilled label reply is applied only when
the value is truthy, and the empty string is falsy in JavaScript. -/
def applyLabel (st : LifxStore) (sn : String) : Option String → LifxStore
  | none => st
  | some l => if l = "" then st else setDev st sn (fun d => { d with label := l })

/-- Lines 98-117 of `store.ts`: group fields on the device, then the group
upsert (create the group with `[sn]`, or append `sn` when absent). -/
def applyGroup (st : LifxStore) (sn : String) : Option GroupResult → LifxStore
  | none => st
  | some g =>
    let st1 := setDev (setDev st sn (fun d => { d with group := g.label })) sn
      (fun d => { d with groupId := g.group })
    match lookupA st1.groups g.group with
    | none =>
        { st1 with groups := st1.groups ++ [(g.group, ⟨g.group, g.label, [sn], true⟩)] }
    | some grp =>
        if sn ∈ grp.devices then st1
        else setGroupA st1 g.group (fun gr => { gr with devices := gr.devices ++ [sn] })

/-- The `batch` body of `queryDeviceState` (lines 68-121 of `store.ts`),
applied to the four settled sub-query results.  The final two writes set
`online := true` and `lastSeen := Date.now()` unconditionally. -/
def queryDeviceStateApply (st : LifxStore) (sn : String)
    (colorR : Option ColorResult) (labelR : Option String)
    (groupR : Option GroupResult) (versionR : Option VersionResult)
    (now : Nat) : LifxStore :=
  setDev
    (setDev (applyGroup (applyLabel (applyColor (applyVersion st sn versionR) sn colorR) sn labelR) sn groupR)
      sn (fun d => { d with online := true }))
    sn (fun d => { d with lastSeen := now })

/-- The fresh record created by `registerDevice` for an unknown serial number
(lines 135-148 of `store.ts`); the temporary label is the last 6 characters
of the serial number (`sn.slice(-6)`). -/
def freshDeviceState (dev : Device) (now : Nat) : DeviceState where
  serialNumber := dev.serialNumber
  device := dev
  label := dev.serialNumber.drop (dev.serialNumber.length - 6)
  group := ""
  groupId := ""
  power := false
  color := ⟨0, 0, 32768, 3500⟩
  online := true
  selected := false
  lastSeen := now
  deviceType := DeviceType.unknown
  productId := 0

/-- The upsert performed by `registerDevice` (lines 131-152 of `store.ts`).
The subsequent asynchronous `queryDeviceState(device)` call is a separate
operation and is not part of the upsert. -/
def registerDevice (st : LifxStore) (dev : Device) (now : Nat) : LifxStore :=
  match lookupA st.devices dev.serialNumber with
  | none =>
      { st with devices := st.devices ++ [(dev.serialNumber, freshDeviceState dev now)] }
  | some _ =>
      setDev (setDev st dev.serialNumber (fun d => { d with device := dev }))
        dev.serialNumber (fun d => { d with lastSeen := now })

/-- `store.devices[sn]?.selected` (falsy when the record is missing). -/
def devSelected (st : LifxStore) (sn : String) : Bool :=
  ((lookupA st.devices sn).map DeviceState.selected).getD false

/-- `store.devices[sn]?.online` (falsy when the record is missing). -/
def devOnline (st : LifxStore) (sn : String) : Bool :=
  ((lookupA st.devices sn).map DeviceState.online).getD false

/-- `store.devices[sn]?.power` (falsy when the record is missing). -/
def devPower (st : LifxStore) (sn : String) : Bool :=
  ((lookupA st.devices sn).map DeviceState.power).getD false

/-- `updateSelectedList` (lines 205-208 of `store.ts`): the selection list is
recomputed as the keys of the currently selected records, in registration
order. -/
def updateSelectedList (st : LifxStore) : LifxStore :=
  { st with selectedDevices := (st.devices.filter (fun p => p.2.selected)).map Prod.fst }

/-- `toggleSelect` (lines 159-163 of `store.ts`). -/
def toggleSelect (st : LifxStore) (sn : String) : LifxStore :=
  updateSelectedList (setDev st sn (fun d => { d with selected := !(devSelected st sn) }))

/-- The deselect-all loop shared by `selectDevice` and `selectNone`. -/
def deselectAll (st : LifxStore) : LifxStore :=
  { st with devices := st.devices.map (fun p => (p.1, { p.2 with selected := false })) }

/-- `selectDevice` (lines 165-172 of `store.ts`). -/
def selectDevice (st : LifxStore) (sn : String) : LifxStore :=
  updateSelectedList (setDev (deselectAll st) sn (fun d => { d with selected := true }))

/-- `selectAll` (lines 174-181 of `store.ts`): only online devices. -/
def selectAll (st : LifxStore) : LifxStore :=
  updateSelectedList
    { st with
      devices := st.devices.map
        (fun p => if p.2.online then (p.1, { p.2 with selected := true }) else p) }

/-- `selectNone` (lines 183-188 of `store.ts`). -/
def selectNone (st : LifxStore) : LifxStore :=
  updateSelectedList (deselectAll st)

/-- The loop body of `selectGroup` (lines 197-201 of `store.ts`): flip one
member's selected flag to `b` when it is online. -/
def selStep (b : Bool) (s : LifxStore) (sn : String) : LifxStore :=
  if devOnline s sn then setDev s sn (fun d => { d with selected := b }) else s

/-- `selectGroup` (lines 190-203 of `store.ts`): compute `allSelected` over
all members first, then flip every online member to `!allSelected`. -/
def selectGroup (st : LifxStore) (gid : String) : LifxStore :=
  match lookupA st.groups gid with
  | none => st
  | some g =>
    let allSelected := g.devices.all (fun sn => devSelected st sn)
    updateSelectedList (g.devices.foldl (selStep (!allSelected)) st)

/-- `toggleGroup` (lines 211-213 of `store.ts`). -/
def toggleGroup (st : LifxStore) (gid : String) : LifxStore :=
  setGroupA st gid (fun g => { g with expanded := !g.expanded })

/-! ### Command intents

`setColor` / `setPower` issue one unicast per selected online device and
optimistically update the cached field.  The issued unicasts are returned
alongside the new store so that theorems can speak about which commands were
sent; `client.unicast` itself is fire-and-forget. -/

/-- Per-device body of `setColor`: unicast and optimistic color update for a
selected online device, skip otherwise. -/
def colStep (c : HSBK) (acc : LifxStore × List (String × HSBK)) (sn : String) :
    LifxStore × List (String × HSBK) :=
  if devOnline acc.1 sn then
    (setDev acc.1 sn (fun d => { d with color := c }), acc.2 ++ [(sn, c)])
  else acc

/-- `setColor` (lines 216-236 of `store.ts`), state effect plus the list of
issued set-color unicasts. -/
def setColorApply (st : LifxStore) (c : HSBK) : LifxStore × List (String × HSBK) :=
  if st.selectedDevices.isEmpty then (st, [])
  else st.selectedDevices.foldl (colStep c) (st, [])

/-- Per-device body of `setPower`: unicast and optimistic power update for a
selected online device, skip otherwise. -/
def powStep (pw : Bool) (acc : LifxStore × List (String × Bool)) (sn : String) :
    LifxStore × List (String × Bool) :=
  if devOnline acc.1 sn then
    (setDev acc.1 sn (fun d => { d with power := pw }), acc.2 ++ [(sn, pw)])
  else acc

/-- `setPower` (lines 238-258 of `store.ts`), state effect plus the list of
issued set-power unicasts. -/
def setPowerApply (st : LifxStore) (pw : Bool) : LifxStore × List (String × Bool) :=
  if st.selectedDevices.isEmpty then (st, [])
  else st.selectedDevices.foldl (powStep pw) (st, [])

/-- `const anyOn = selected.some((sn) => store.devices[sn]?.power)`. -/
def anyPowerOn (st : LifxStore) : Bool :=
  st.selectedDevices.any (fun sn => devPower st sn)

/-- `togglePower` (lines 260-267 of `store.ts`). -/
def togglePowerApply (st : LifxStore) : LifxStore × List (String × Bool) :=
  if st.selectedDevices.isEmpty then (st, [])
  else setPowerApply st (!anyPowerOn st)

/-- `refreshAll` (lines 270-276 of `store.ts`): set the scanning flag,
serially refresh every known device, clear the flag.  The network outcome of
each refresh is supplied by `res`. -/
def refreshAllApply (st : LifxStore) (sns : List String)
    (res : String →
      Option ColorResult × Option String × Option GroupResult × Option VersionResult)
    (now : Nat) : LifxStore :=
  let st1 := { st with isScanning := true }
  let st2 := sns.foldl
    (fun s sn => queryDeviceStateApply s sn (res sn).1 (res sn).2.1 (res sn).2.2.1
      (res sn).2.2.2 now)
    st1
  { st2 with isScanning := false }

/-- The member list of a group, empty when the group does not exist. -/
def membersOf (st : LifxStore) (gid : String) : List String :=
  ((lookupA st.groups gid).map GroupState.devices).getD []

/-! ### Read views -/

/-- `device && device.deviceType !== 'switch'` for one member key. -/
def isNonSwitch (st : LifxStore) (sn : String) : Bool :=
  match lookupA st.devices sn with
  | some d => d.deviceType != DeviceType.switch
  | none => false

/-- `store.devices[sn]?.deviceType === 'light'` for one member key. -/
def isLightMemberKey (st : LifxStore) (sn : String) : Bool :=
  match lookupA st.devices sn with
  | some d => d.deviceType == DeviceType.light
  | none => false

/-- The ordering used by `getGroupDevices`: `a.label.localeCompare(b.label)`. -/
def labelLe (a b : DeviceState) : Prop := a.label ≤ b.label

/-- The comparator of `getSortedGroups` (lines 300-304 of `store.ts`) as a
relation: the `ungrouped` pseudo-group sorts after everything, otherwise
labels compare alphabetically. -/
def groupOrder (a b : GroupState) : Prop :=
  b.id = "ungrouped" ∨ (a.id ≠ "ungrouped" ∧ a.label ≤ b.label)

instance : DecidableRel labelLe :=
  fun a b => decidable_of_iff (a.label ≤ b.label) Iff.rfl

instance : DecidableRel groupOrder :=
  fun a b =>
    decidable_of_iff (b.id = "ungrouped" ∨ (a.id ≠ "ungrouped" ∧ a.label ≤ b.label)) Iff.rfl

instance : IsTotal DeviceState labelLe :=
  ⟨fun a b => le_total a.label b.label⟩

instance : IsTrans DeviceState labelLe :=
  ⟨fun _ _ _ hab hbc => le_trans hab hbc⟩

instance : IsTotal GroupState groupOrder := by
  constructor
  intro a b
  by_cases hb : b.id = "ungrouped"
  · exact Or.inl (Or.inl hb)
  · by_cases ha : a.id = "ungrouped"
    · exact Or.inr (Or.inl ha)
    · rcases le_total a.label b.label with h | h
      · exact Or.inl (Or.inr ⟨ha, h⟩)
      · exact Or.inr (Or.inr ⟨hb, h⟩)

instance : IsTrans GroupState groupOrder := by
  constructor
  intro a b c hab hbc
  rcases hbc with hc | ⟨hb, hbc⟩
  · exact Or.inl hc
  · rcases hab with hb' | ⟨ha, hab⟩
    · exact absurd hb' hb
    · exact Or.inr ⟨ha, le_trans hab hbc⟩

/-- `getGroupDevices` (lines 280-287 of `store.ts`): present, non-switch
members of the group, sorted by label. -/
def getGroupDevices (st : LifxStore) (gid : String) : List DeviceState :=
  match lookupA st.groups gid with
  | none => []
  | some g =>
    List.insertionSort labelLe
      ((g.devices.filterMap (fun sn => lookupA st.devices sn)).filter
        (fun d => d.deviceType != DeviceType.switch))

/-- `getSortedGroups` (lines 290-305 of `store.ts`): groups with at least one
present non-switch member, sorted by label with `ungrouped` last. -/
def getSortedGroups (st : LifxStore) : List GroupState :=
  List.insertionSort groupOrder
    ((st.groups.map Prod.snd).filter (fun g => g.devices.any (fun sn => isNonSwitch st sn)))

/-! ### Transport shutdown (`src/lifx/client.ts`)

The transport keeps a send counter and a should-close flag; every
`socket.send` registers `socketCallback` as its completion callback.  The
field `callbacksPending` below counts issued sends whose completion callback
has not yet run; `socketClosed` records whether `socket.close()` has been
invoked. -/

structure TransportState where
  sendCounter : Int
  socketShouldClose : Bool
  socketClosed : Bool
  callbacksPending : Nat
deriving DecidableEq, Repr

/-- The initial transport state after `LifxClient` binds the socket. -/
def initTransport : TransportState := ⟨0, false, false, 0⟩

/-- `socketCallback` (lines 18-23 of `client.ts`): decrement the counter and
close the socket when a close was requested and the counter is not positive. -/
def socketCallbackStep (s : TransportState) : TransportState :=
  let s1 := { s with sendCounter := s.sendCounter - 1 }
  if s1.socketShouldClose ∧ s1.sendCounter ≤ 0 then { s1 with socketClosed := true }
  else s1

/-- `onSend` (lines 26-29 of `client.ts`): increment the counter and hand the
datagram to `socket.send` with `socketCallback` as completion callback. -/
def onSendStep (s : TransportState) : TransportState :=
  { s with
    sendCounter := s.sendCounter + 1
    callbacksPending := s.callbacksPending + 1 }

/-- A pending send's completion callback fires: one fewer callback pending,
then the `socketCallback` body runs. -/
def sendCompleteStep (s : TransportState) : TransportState :=
  socketCallbackStep { s with callbacksPending := s.callbacksPending - 1 }

/-- `close()` (lines 58-62 of `client.ts`): set the should-close flag, then
invoke `socketCallback()` directly (which decrements the counter). -/
def closeStep (s : TransportState) : TransportState :=
  socketCallbackStep { s with socketShouldClose := true }

/-! ### Refresh deduplication (`pendingQueries` in `store.ts`)

The entry guard of `queryDeviceState` (lines 56-58) and the `finally` clause
(line 126) form a small transition system under the single-threaded event
loop: the guard and insertion are one synchronous atomic step, and a started
refresh body later finishes, removing the serial number again. -/

structure RefreshSys where
  pending : List String
  inflight : List String
deriving DecidableEq, Repr

/-- The synchronous entry of `queryDeviceState`: a no-op when a refresh for
`sn` is already pending, otherwise the refresh is launched.  The boolean
reports whether a query sequence was started. -/
def callQuery (s : RefreshSys) (sn : String) : RefreshSys × Bool :=
  if sn ∈ s.pending then (s, false)
  else ({ pending := sn :: s.pending, inflight := sn :: s.inflight }, true)

/-- A started refresh body completes; its `finally` removes `sn` from the
pending set. -/
def finishQuery (s : RefreshSys) (sn : String) : RefreshSys :=
  { pending := s.pending.erase sn, inflight := s.inflight.erase sn }

/-- The states reachable from the empty system by calls and completions. -/
inductive ReachQ : RefreshSys → Prop where
  | init : ReachQ ⟨[], []⟩
  | call (s : RefreshSys) (sn : String) : ReachQ s → ReachQ (callQuery s sn).1
  | finish (s : RefreshSys) (sn : String) : ReachQ s → sn ∈ s.inflight →
      ReachQ (finishQuery s sn)

/-- `n` successive calls to `queryDeviceState` for the same serial number,
counting how many query sequences were launched. -/
def callRepeat (s : RefreshSys) (sn : String) : Nat → RefreshSys × Nat
  | 0 => (s, 0)
  | n + 1 =>
    let r := callQuery s sn
    let rest := callRepeat r.1 sn n
    (rest.1, (if r.2 then 1 else 0) + rest.2)

/-! ### Tap tempo (`tapTempo` in `src/lifx/effects.ts`, lines 261-271) -/

/-- `Math.round(60000 / interval)` for a positive integer interval: round
half up, computed exactly on naturals. -/
def round60000 (t : Nat) : Nat := (120000 + t) / (2 * t)

/-- The engine state touched by `tapTempo`: the tap anchor and the bpm field
of the DJ configuration. -/
structure TapState where
  lastTapTime : Nat
  bpm : Nat
deriving DecidableEq, Repr

/-- `tapTempo()` at time `now`: when a previous tap exists and the interval
lies strictly inside (200, 2000), the bpm is recomputed via `updateConfig`;
the tap anchor is always re-set to `now`. -/
def tapTempo (s : TapState) (now : Nat) : TapState :=
  if s.lastTapTime > 0 then
    let interval := now - s.lastTapTime
    if 200 < interval ∧ interval < 2000 then
      { lastTapTime := now, bpm := round60000 interval }
    else { s with lastTapTime := now }
  else { s with lastTapTime := now }

/-! ### Concrete fixtures used by evaluation theorems -/

/-- A device record with the given serial number, label, power, selected,
online flags, class and last-seen time; the remaining fields are the
registration defaults. -/
def mkDev (sn lbl : String) (pw sel onl : Bool) (ty : DeviceType) (ls : Nat) : DeviceState where
  serialNumber := sn
  device := ⟨sn, 0, ""⟩
  label := lbl
  group := ""
  groupId := ""
  power := pw
  color := ⟨0, 0, 32768, 3500⟩
  online := onl
  selected := sel
  lastSeen := ls
  deviceType := ty
  productId := 0

/-- One offline light, for evaluating a totally failed refresh. -/
def stTotalFail : LifxStore where
  devices := [("d1", mkDev "d1" "Lamp" false false false DeviceType.unknown 5)]
  groups := []
  selectedDevices := []
  isScanning := false

/-- A fully online group whose selection is split: member `a` is selected,
member `b` is not. -/
def stPartialSel : LifxStore where
  devices :=
    [("a", mkDev "a" "A" false true true DeviceType.light 0),
     ("b", mkDev "b" "B" false false true DeviceType.light 0)]
  groups := [("g", ⟨"g", "G", ["a", "b"], true⟩)]
  selectedDevices := ["a"]
  isScanning := false

/-- A fully online group with both members selected. -/
def stUniformSel : LifxStore where
  devices :=
    [("a", mkDev "a" "A" false true true DeviceType.light 0),
     ("b", mkDev "b" "B" false true true DeviceType.light 0)]
  groups := [("g", ⟨"g", "G", ["a", "b"], true⟩)]
  selectedDevices := ["a", "b"]
  isScanning := false

/-- Two selected online devices, `a` powered on and `b` powered off. -/
def stMixedPower : LifxStore where
  devices :=
    [("a", mkDev "a" "A" true true true DeviceType.light 0),
     ("b", mkDev "b" "B" false true true DeviceType.light 0)]
  groups := []
  selectedDevices := ["a", "b"]
  isScanning := false

/-- A group whose only member is still classified `unknown` (its version
query has not succeeded yet). -/
def stUnknownOnly : LifxStore where
  devices := [("x", mkDev "x" "X" false false true DeviceType.unknown 0)]
  groups := [("g1", ⟨"g1", "G1", ["x"], true⟩)]
  selectedDevices := []
  isScanning := false

/-- A store already containing a record for serial `aabbcc`, with known
label, group, power, color, selection and last-seen time. -/
def stReRegister : LifxStore where
  devices :=
    [("aabbcc", mkDev "aabbcc" "Desk" true true true DeviceType.light 5)]
  groups := []
  selectedDevices := ["aabbcc"]
  isScanning := false

/-- A device `x` currently a member of group `g1`. -/
def stOneGroup : LifxStore where
  devices := [("x", mkDev "x" "X" false false true DeviceType.light 0)]
  groups := [("g1", ⟨"g1", "G1", ["x"], true⟩)]
  selectedDevices := []
  isScanning := false

/-! ## Basic lemmas about the map embedding -/

theorem lookupA_updateA {α : Type} (m : List (String × α)) (key key' : String) (f : α → α) :
    lookupA (updateA m key f) key' =
      if key = key' then (lookupA m key').map f else lookupA m key' := by
  induction m with
  | nil => simp [lookupA, updateA]
  | cons p rest ih =>
    obtain ⟨k, v⟩ := p
    by_cases hk : k = key <;> by_cases hk' : k = key' <;>
      by_cases h : key = key' <;> simp_all [lookupA, updateA]

theorem lookupA_append {α : Type} (m m2 : List (String × α)) (key : String) :
    lookupA (m ++ m2) key =
      match lookupA m key with
      | some v => some v
      | none => lookupA m2 key := by
  induction m with
  | nil => simp [lookupA]
  | cons p rest ih =>
    obtain ⟨k, v⟩ := p
    by_cases hk : k = key <;> simp_all [lookupA]

theorem keys_updateA {α : Type} (m : List (String × α)) (key : String) (f : α → α) :
    (updateA m key f).map Prod.fst = m.map Prod.fst := by
  induction m with
  | nil => rfl
  | cons p rest ih =>
    obtain ⟨k, v⟩ := p
    by_cases hk : k = key <;> simp_all [updateA]

theorem lookupA_setDev (st : LifxStore) (sn : String) (f : DeviceState → DeviceState)
    (sn' : String) :
    lookupA (setDev st sn f).devices sn' =
      if sn = sn' then (lookupA st.devices sn').map f else lookupA st.devices sn' :=
  lookupA_updateA st.devices sn sn' f

theorem setDev_groups (st : LifxStore) (sn : String) (f : DeviceState → DeviceState) :
    (setDev st sn f).groups = st.groups := rfl

theorem setGroupA_devices (st : LifxStore) (gid : String) (f : GroupState → GroupState) :
    (setGroupA st gid f).devices = st.devices := rfl

/-! ## Lemmas about one refresh cycle -/

theorem applyVersion_groups (st : LifxStore) (sn : String) (vR : Option VersionResult) :
    (applyVersion st sn vR).groups = st.groups := by
  cases vR with
  | none => rfl
  | some v =>
    by_cases hp : v.product.getD 0 ∈ SWITCH_PRODUCT_IDS <;> simp [applyVersion, hp, setDev]

theorem applyColor_groups (st : LifxStore) (sn : String) (cR : Option ColorResult) :
    (applyColor st sn cR).groups = st.groups := by
  cases cR with
  | none => rfl
  | some c =>
    cases hp : c.power <;> simp [applyColor, hp, setDev]

theorem applyLabel_groups (st : LifxStore) (sn : String) (lR : Option String) :
    (applyLabel st sn lR).groups = st.groups := by
  cases lR with
  | none => rfl
  | some l =>
    by_cases hl : l = "" <;> simp [applyLabel, hl, setDev]

theorem lookupA_applyVersion_self (st : LifxStore) (sn : String) (v : VersionResult) :
    lookupA (applyVersion st sn (some v)).devices sn =
      (lookupA st.devices sn).map (fun d =>
        { d with
          productId := v.product.getD 0
          deviceType :=
            if v.product.getD 0 ∈ SWITCH_PRODUCT_IDS then DeviceType.switch
            else DeviceType.light }) := by
  by_cases hp : v.product.getD 0 ∈ SWITCH_PRODUCT_IDS <;>
    · simp [applyVersion, hp, lookupA_setDev, Option.map_map]
      cases lookupA st.devices sn <;> rfl

theorem lookupA_applyColor_self (st : LifxStore) (sn : String) (c : ColorResult) :
    lookupA (applyColor st sn (some c)).devices sn =
      (lookupA st.devices sn).map (fun d =>
        { d with
          color := ⟨c.hue, c.saturation, c.brightness, c.kelvin⟩
          power := match c.power with | some p => decide (0 < p) | none => d.power }) := by
  cases hp : c.power <;>
    · simp [applyColor, hp, lookupA_setDev, Option.map_map]
      try (cases lookupA st.devices sn <;> rfl)

theorem applyGroup_devices (st : LifxStore) (sn : String) (g : GroupResult) :
    (applyGroup st sn (some g)).devices =
      updateA (updateA st.devices sn (fun d => { d with group := g.label })) sn
        (fun d => { d with groupId := g.group }) := by
  unfold applyGroup
  simp only [setDev_groups]
  cases hg : lookupA st.groups g.group with
  | none => simp [setDev]
  | some grp =>
    by_cases hmem : sn ∈ grp.devices <;> simp [hmem, setGroupA, setDev]

theorem lookupA_applyGroup_self (st : LifxStore) (sn : String) (g : GroupResult) :
    lookupA (applyGroup st sn (some g)).devices sn =
      (lookupA st.devices sn).map (fun d => { d with group := g.label, groupId := g.group }) := by
  rw [applyGroup_devices]
  rw [lookupA_updateA, if_pos rfl, lookupA_updateA, if_pos rfl, Option.map_map]
  cases lookupA st.devices sn <;> rfl

theorem applyGroup_self_mem (st : LifxStore) (sn : String) (g : GroupResult) :
    sn ∈ membersOf (applyGroup st sn (some g)) g.group := by
  unfold applyGroup
  simp only [setDev_groups]
  cases hg : lookupA st.groups g.group with
  | none =>
    simp [membersOf, lookupA_append, hg, lookupA, setDev]
  | some grp =>
    by_cases hmem : sn ∈ grp.devices
    · simp [hmem, membersOf, hg, setDev]
    · simp [hmem, membersOf, setGroupA, lookupA_updateA, hg, setDev]

theorem applyLabel_none (st : LifxStore) (sn : String) : applyLabel st sn none = st := rfl

theorem lookupA_setDev_self (st : LifxStore) (sn : String) (f : DeviceState → DeviceState) :
    lookupA (setDev st sn f).devices sn = (lookupA st.devices sn).map f := by
  simp [lookupA_setDev]

/-! ## Claim theorems -/

/-- Claim C1 (evidence of the code bug): a refresh cycle in which all four
sub-queries fail still sets the device online and refreshes `lastSeen`.
`Promise.allSettled` never rejects, so the success path of
`queryDeviceState` runs unconditionally and the `catch` branch that would
set `online := false` is unreachable on sub-query failure: the device
`d1` of `stTotalFail` starts offline with `lastSeen = 5`, every sub-query
of the refresh is rejected, and the refresh nevertheless ends with
`online = true` and `lastSeen = 99`, contradicting the specified
total-failure behaviour. -/
theorem total_failure_refresh_marks_online :
    ((lookupA (queryDeviceStateApply stTotalFail "d1" none none none none 99).devices
        "d1").map DeviceState.online) = some true ∧
    ((lookupA (queryDeviceStateApply stTotalFail "d1" none none none none 99).devices
        "d1").map DeviceState.lastSeen) = some 99 := by
  decide

/-- Claim C2 (evidence of the code bug): `close()` itself invokes
`socketCallback()`, an extra decrement of the in-flight counter that no send
completion matches.  With exactly one send in flight, `close()` drives the
counter from 1 to 0 and closes the socket at once, while the pending send's
completion callback has not yet run — so teardown is not deferred until all
pending sends have completed, contradicting the claimed drain-before-close
guarantee. -/
theorem close_with_pending_send_closes_socket :
    (closeStep (onSendStep initTransport)).socketClosed = true ∧
    (closeStep (onSendStep initTransport)).callbacksPending = 1 := by
  decide

theorem reachQ_inv (s : RefreshSys) (h : ReachQ s) :
    s.inflight.Nodup ∧ ∀ sn ∈ s.inflight, sn ∈ s.pending := by
  induction h with
  | init => simp
  | call s sn hs ih =>
    obtain ⟨hnd, hsub⟩ := ih
    by_cases hp : sn ∈ s.pending
    · simp only [callQuery, if_pos hp]
      exact ⟨hnd, hsub⟩
    · simp only [callQuery, if_neg hp]
      have hif : sn ∉ s.inflight := fun hm => hp (hsub sn hm)
      refine ⟨List.nodup_cons.2 ⟨hif, hnd⟩, ?_⟩
      intro m hm
      rcases List.mem_cons.1 hm with rfl | hm
      · exact List.mem_cons_self _ _
      · exact List.mem_cons_of_mem _ (hsub m hm)
  | finish s sn hs hin ih =>
    obtain ⟨hnd, hsub⟩ := ih
    refine ⟨hnd.erase sn, ?_⟩
    intro m hm
    have hm' : m ≠ sn ∧ m ∈ s.inflight := (List.Nodup.mem_erase_iff hnd).1 hm
    exact (List.mem_erase_of_ne hm'.1).2 (hsub m hm'.2)

/-- Claim C3: the dedup invariant of `queryDeviceState`.  In every reachable
state of the pending-query system, at most one refresh per serial number is
in flight; a call arriving while one is pending returns immediately without
changing any state or launching a query; and `n + 1` successive calls for a
serial number with no pending refresh launch exactly one query sequence,
the other `n` being no-ops. -/
theorem refresh_dedup_invariant :
    (∀ s : RefreshSys, ReachQ s → ∀ sn : String, s.inflight.count sn ≤ 1) ∧
    (∀ (s : RefreshSys) (sn : String), sn ∈ s.pending → callQuery s sn = (s, false)) ∧
    (∀ (s : RefreshSys) (sn : String) (n : Nat), sn ∉ s.pending →
      callRepeat s sn (n + 1) = ((callQuery s sn).1, 1)) := by
  refine ⟨?_, ?_, ?_⟩
  · intro s hs sn
    exact List.nodup_iff_count_le_one.1 (reachQ_inv s hs).1 sn
  · intro s sn hp
    simp [callQuery, hp]
  · intro s sn n hp
    have hrep : ∀ (k : Nat) (s2 : RefreshSys), sn ∈ s2.pending →
        callRepeat s2 sn k = (s2, 0) := by
      intro k
      induction k with
      | zero => intro s2 _; rfl
      | succ k ih =>
        intro s2 h2
        simp [callRepeat, callQuery, h2, ih s2 h2]
    have hq : (callQuery s sn).2 = true := by simp [callQuery, hp]
    have hmem : sn ∈ (callQuery s sn).1.pending := by simp [callQuery, hp]
    simp [callRepeat, hrep n _ hmem, hq]

/-- Witness for C3: a concrete reachable state with one refresh in flight
satisfies the count bound, and a repeated call for the same serial number is
the identity no-op. -/
theorem refresh_dedup_invariant_witness :
    (RefreshSys.mk ["aa"] ["aa"]).inflight.count "aa" ≤ 1 ∧
    callQuery ⟨["aa"], ["aa"]⟩ "aa" = (⟨["aa"], ["aa"]⟩, false) := by
  constructor
  · refine refresh_dedup_invariant.1 ⟨["aa"], ["aa"]⟩ ?_ "aa"
    have h := ReachQ.call ⟨[], []⟩ "aa" ReachQ.init
    simpa [callQuery] using h
  · exact refresh_dedup_invariant.2.1 ⟨["aa"], ["aa"]⟩ "aa" (by decide)

/-- Claim C4: partial-failure independence.  When the label sub-query fails
while color, group and version succeed, the refresh still updates color
(and power when the reply carries it), the group fields and membership,
the product id and device class, sets `online := true` and refreshes
`lastSeen`, while the label (and the selection flag) keep their previous
values. -/
theorem label_failure_independence
    (st : LifxStore) (sn : String) (d : DeviceState) (c : ColorResult)
    (g : GroupResult) (v : VersionResult) (now : Nat)
    (h : lookupA st.devices sn = some d) :
    ∃ d2 : DeviceState,
      lookupA (queryDeviceStateApply st sn (some c) none (some g) (some v) now).devices sn
          = some d2 ∧
      d2.color = ⟨c.hue, c.saturation, c.brightness, c.kelvin⟩ ∧
      d2.power = (match c.power with | some p => decide (0 < p) | none => d.power) ∧
      d2.group = g.label ∧
      d2.groupId = g.group ∧
      d2.productId = v.product.getD 0 ∧
      d2.deviceType =
        (if v.product.getD 0 ∈ SWITCH_PRODUCT_IDS then DeviceType.switch
         else DeviceType.light) ∧
      d2.online = true ∧
      d2.lastSeen = now ∧
      d2.label = d.label ∧
      d2.selected = d.selected ∧
      sn ∈ membersOf (queryDeviceStateApply st sn (some c) none (some g) (some v) now)
        g.group := by
  have hfinal :
      lookupA (queryDeviceStateApply st sn (some c) none (some g) (some v) now).devices sn =
        some { d with
          productId := v.product.getD 0
          deviceType :=
            if v.product.getD 0 ∈ SWITCH_PRODUCT_IDS then DeviceType.switch
            else DeviceType.light
          color := ⟨c.hue, c.saturation, c.brightness, c.kelvin⟩
          power := match c.power with | some p => decide (0 < p) | none => d.power
          group := g.label
          groupId := g.group
          online := true
          lastSeen := now } := by
    unfold queryDeviceStateApply
    rw [applyLabel_none, lookupA_setDev_self, lookupA_setDev_self, lookupA_applyGroup_self,
      lookupA_applyColor_self, lookupA_applyVersion_self, h]
    rfl
  have hgroups :
      (queryDeviceStateApply st sn (some c) none (some g) (some v) now).groups =
        (applyGroup (applyColor (applyVersion st sn (some v)) sn (some c)) sn (some g)).groups := by
    unfold queryDeviceStateApply
    rw [applyLabel_none]
    rfl
  have hmem :
      sn ∈ membersOf (queryDeviceStateApply st sn (some c) none (some g) (some v) now)
        g.group := by
    have h2 := applyGroup_self_mem (applyColor (applyVersion st sn (some v)) sn (some c)) sn g
    simpa [membersOf, hgroups] using h2
  exact ⟨_, hfinal, rfl, rfl, rfl, rfl, rfl, rfl, rfl, rfl, rfl, rfl, hmem⟩

/-- Witness for C4: device `x` of `stOneGroup`, refreshed with a failed
label query and successful color, group and version replies. -/
theorem label_failure_independence_witness :
    ∃ d2 : DeviceState,
      lookupA (queryDeviceStateApply stOneGroup "x" (some ⟨100, 200, 300, 3500, some 65535⟩)
          none (some ⟨"g2", "G2"⟩) (some ⟨some 27⟩) 50).devices "x" = some d2 ∧
      d2.color = ⟨100, 200, 300, 3500⟩ ∧
      d2.power = true ∧
      d2.group = "G2" ∧
      d2.groupId = "g2" ∧
      d2.productId = 27 ∧
      d2.deviceType = DeviceType.light ∧
      d2.online = true ∧
      d2.lastSeen = 50 ∧
      d2.label = "X" ∧
      d2.selected = false ∧
      "x" ∈ membersOf (queryDeviceStateApply stOneGroup "x"
          (some ⟨100, 200, 300, 3500, some 65535⟩) none (some ⟨"g2", "G2"⟩)
          (some ⟨some 27⟩) 50) "g2" :=
  label_failure_independence stOneGroup "x"
    (mkDev "x" "X" false false true DeviceType.light 0)
    ⟨100, 200, 300, 3500, some 65535⟩ ⟨"g2", "G2"⟩ ⟨some 27⟩ 50 (by decide)

/-! ## Lemmas about selectGroup -/

theorem selStep_groups (b : Bool) (s : LifxStore) (sn : String) :
    (selStep b s sn).groups = s.groups := by
  unfold selStep
  split <;> rfl

theorem selFold_groups (b : Bool) : ∀ (l : List String) (s : LifxStore),
    (l.foldl (selStep b) s).groups = s.groups := by
  intro l
  induction l with
  | nil => intro s; rfl
  | cons a t ih =>
    intro s
    simp only [List.foldl_cons]
    rw [ih, selStep_groups]

theorem devOnline_selStep (b : Bool) (s : LifxStore) (sn sn' : String) :
    devOnline (selStep b s sn) sn' = devOnline s sn' := by
  unfold selStep
  split
  · by_cases h : sn = sn'
    · subst h
      unfold devOnline
      rw [lookupA_setDev_self]
      cases lookupA s.devices sn <;> rfl
    · unfold devOnline
      rw [lookupA_setDev, if_neg h]
  · rfl

theorem isSome_selStep (b : Bool) (s : LifxStore) (sn sn' : String) :
    (lookupA (selStep b s sn).devices sn').isSome = (lookupA s.devices sn').isSome := by
  unfold selStep
  split
  · by_cases h : sn = sn'
    · subst h
      rw [lookupA_setDev_self]
      cases lookupA s.devices sn <;> rfl
    · rw [lookupA_setDev, if_neg h]
  · rfl

theorem devSelected_selStep_other (b : Bool) (s : LifxStore) (sn sn' : String)
    (h : sn ≠ sn') :
    devSelected (selStep b s sn) sn' = devSelected s sn' := by
  unfold selStep
  split
  · unfold devSelected
    rw [lookupA_setDev, if_neg h]
  · rfl

theorem devSelected_selStep_self (b : Bool) (s : LifxStore) (sn : String)
    (hon : devOnline s sn = true) (hp : (lookupA s.devices sn).isSome = true) :
    devSelected (selStep b s sn) sn = b := by
  unfold selStep
  rw [if_pos hon]
  unfold devSelected
  rw [lookupA_setDev_self]
  obtain ⟨d, hd⟩ := Option.isSome_iff_exists.1 hp
  rw [hd]
  rfl

theorem selFold_devOnline (b : Bool) : ∀ (l : List String) (s : LifxStore) (sn' : String),
    devOnline (l.foldl (selStep b) s) sn' = devOnline s sn' := by
  intro l
  induction l with
  | nil => intro s sn'; rfl
  | cons a t ih =>
    intro s sn'
    simp only [List.foldl_cons]
    rw [ih, devOnline_selStep]

theorem selFold_isSome (b : Bool) : ∀ (l : List String) (s : LifxStore) (sn' : String),
    (lookupA (l.foldl (selStep b) s).devices sn').isSome = (lookupA s.devices sn').isSome := by
  intro l
  induction l with
  | nil => intro s sn'; rfl
  | cons a t ih =>
    intro s sn'
    simp only [List.foldl_cons]
    rw [ih, isSome_selStep]

theorem selFold_devSelected_not_mem (b : Bool) :
    ∀ (l : List String) (s : LifxStore) (sn' : String), sn' ∉ l →
      devSelected (l.foldl (selStep b) s) sn' = devSelected s sn' := by
  intro l
  induction l with
  | nil => intro s sn' _; rfl
  | cons a t ih =>
    intro s sn' h
    simp only [List.foldl_cons]
    have h1 : sn' ∉ t := fun hm => h (List.mem_cons_of_mem _ hm)
    have h2 : a ≠ sn' := fun he => h (he ▸ List.mem_cons_self a t)
    rw [ih _ _ h1, devSelected_selStep_other _ _ _ _ h2]

theorem selFold_devSelected_mem (b : Bool) :
    ∀ (l : List String) (s : LifxStore),
      (∀ m ∈ l, devOnline s m = true) →
      (∀ m ∈ l, (lookupA s.devices m).isSome = true) →
      ∀ sn' ∈ l, devSelected (l.foldl (selStep b) s) sn' = b := by
  intro l
  induction l with
  | nil => intro s _ _ sn' h; cases h
  | cons a t ih =>
    intro s hon hp sn' hmem
    simp only [List.foldl_cons]
    have hon1 : ∀ m ∈ t, devOnline (selStep b s a) m = true := by
      intro m hm
      rw [devOnline_selStep]
      exact hon m (List.mem_cons_of_mem _ hm)
    have hp1 : ∀ m ∈ t, (lookupA (selStep b s a).devices m).isSome = true := by
      intro m hm
      rw [isSome_selStep]
      exact hp m (List.mem_cons_of_mem _ hm)
    rcases List.mem_cons.1 hmem with rfl | hmem2
    · by_cases ht : sn' ∈ t
      · exact ih _ hon1 hp1 sn' ht
      · rw [selFold_devSelected_not_mem b t _ sn' ht]
        exact devSelected_selStep_self b s sn' (hon sn' (List.mem_cons_self _ _))
          (hp sn' (List.mem_cons_self _ _))
    · exact ih _ hon1 hp1 sn' hmem2

theorem all_of_uniform {l : List String} {p : String → Bool} {b : Bool}
    (h : ∀ m ∈ l, p m = b) (hne : l ≠ []) : l.all p = b := by
  cases l with
  | nil => exact absurd rfl hne
  | cons a t =>
    cases b with
    | false =>
      have ha : p a = false := h a (List.mem_cons_self _ _)
      simp [List.all_cons, ha]
    | true =>
      simp only [List.all_eq_true]
      intro x hx
      exact h x hx

theorem selectGroup_spec (st : LifxStore) (gid : String) (g : GroupState)
    (hg : lookupA st.groups gid = some g)
    (hp : ∀ m ∈ g.devices, (lookupA st.devices m).isSome = true)
    (hon : ∀ m ∈ g.devices, devOnline st m = true) :
    (∀ m ∈ g.devices, devSelected (selectGroup st gid) m
        = !(g.devices.all (fun sn => devSelected st sn))) ∧
    (selectGroup st gid).groups = st.groups ∧
    (∀ m ∈ g.devices, devOnline (selectGroup st gid) m = true) ∧
    (∀ m ∈ g.devices, (lookupA (selectGroup st gid).devices m).isSome = true) := by
  simp only [selectGroup, hg]
  refine ⟨?_, ?_, ?_, ?_⟩
  · intro m hm
    exact selFold_devSelected_mem _ g.devices st hon hp m hm
  · exact selFold_groups _ g.devices st
  · intro m hm
    exact (selFold_devOnline _ g.devices st m).trans (hon m hm)
  · intro m hm
    exact (selFold_isSome _ g.devices st m).trans (hp m hm)

/-- Claim C5 (amended): for a fully online group whose members are uniformly
selected (all of them, or none of them), two successive `selectGroup` calls
restore every member's pre-call selected state. -/
theorem selectGroup_round_trip_uniform
    (st : LifxStore) (gid : String) (g : GroupState) (b : Bool)
    (hg : lookupA st.groups gid = some g)
    (hp : ∀ m ∈ g.devices, (lookupA st.devices m).isSome = true)
    (hon : ∀ m ∈ g.devices, devOnline st m = true)
    (hsel : ∀ m ∈ g.devices, devSelected st m = b) :
    ∀ m ∈ g.devices,
      devSelected (selectGroup (selectGroup st gid) gid) m = devSelected st m := by
  obtain ⟨hsel1, hgr1, hon1, hp1⟩ := selectGroup_spec st gid g hg hp hon
  have hg2 : lookupA (selectGroup st gid).groups gid = some g := by
    rw [hgr1]; exact hg
  obtain ⟨hsel2, hgr2, hon2, hp2⟩ := selectGroup_spec (selectGroup st gid) gid g hg2 hp1 hon1
  intro m hm
  have hne : g.devices ≠ [] := by
    intro he
    rw [he] at hm
    cases hm
  have hall1 : g.devices.all (fun sn => devSelected st sn) = b :=
    all_of_uniform hsel hne
  have hall2 : g.devices.all (fun sn => devSelected (selectGroup st gid) sn) = !b := by
    refine all_of_uniform ?_ hne
    intro m2 hm2
    rw [hsel1 m2 hm2, hall1]
  rw [hsel2 m hm, hall2, Bool.not_not, hsel m hm]

/-- Counterexample for C5 as stated: in `stPartialSel` the group is fully
online but partially selected (`a` selected, `b` not); after two successive
`selectGroup` calls, member `a` is deselected, not restored to its pre-call
selected state. -/
theorem selectGroup_double_not_involutive :
    devSelected stPartialSel "a" = true ∧
    devSelected (selectGroup (selectGroup stPartialSel "g") "g") "a" = false := by
  decide

/-- Witness for C5 (amended): the uniformly selected online group of
`stUniformSel` round-trips member `a`. -/
theorem selectGroup_round_trip_uniform_witness :
    devSelected (selectGroup (selectGroup stUniformSel "g") "g") "a" =
      devSelected stUniformSel "a" :=
  selectGroup_round_trip_uniform stUniformSel "g" ⟨"g", "G", ["a", "b"], true⟩ true
    (by decide) (by decide) (by decide) (by decide) "a" (by decide)

/-- Claim C6: `togglePower` issues `setPower true` exactly when no selected
device is powered on, and otherwise `setPower false`; on the mixed
selection of `stMixedPower` (device `a` on, device `b` off) one call turns
both off and issues both set-power-false unicasts, and a second call turns
both back on. -/
theorem toggle_power_policy :
    (∀ st : LifxStore, st.selectedDevices ≠ [] →
      (((!anyPowerOn st) = true) ↔ ∀ sn ∈ st.selectedDevices, devPower st sn = false) ∧
      togglePowerApply st = setPowerApply st (!anyPowerOn st)) ∧
    ((togglePowerApply stMixedPower).2 = [("a", false), ("b", false)] ∧
      devPower (togglePowerApply stMixedPower).1 "a" = false ∧
      devPower (togglePowerApply stMixedPower).1 "b" = false ∧
      (togglePowerApply (togglePowerApply stMixedPower).1).2 = [("a", true), ("b", true)] ∧
      devPower (togglePowerApply (togglePowerApply stMixedPower).1).1 "a" = true ∧
      devPower (togglePowerApply (togglePowerApply stMixedPower).1).1 "b" = true) := by
  constructor
  · intro st hne
    constructor
    · unfold anyPowerOn
      rw [Bool.not_eq_true', List.any_eq_false]
      simp [Bool.not_eq_true]
    · cases hsel : st.selectedDevices with
      | nil => exact absurd hsel hne
      | cons a t => simp [togglePowerApply, setPowerApply, hsel]
  · decide

/-- Witness for C6: the policy conjunct applied to the non-empty selection
of `stMixedPower`. -/
theorem toggle_power_policy_witness :
    (((!anyPowerOn stMixedPower) = true) ↔
      ∀ sn ∈ stMixedPower.selectedDevices, devPower stMixedPower sn = false) ∧
    togglePowerApply stMixedPower = setPowerApply stMixedPower (!anyPowerOn stMixedPower) :=
  toggle_power_policy.1 stMixedPower (by decide)

/-- Claim C7 (amended): `getSortedGroups` returns exactly the groups having
at least one present non-switch member (devices still classified `unknown`
count, since the source only filters out `switch`), sorted by the
ungrouped-last label order; `getGroupDevices` returns exactly the present
non-switch members of the group, sorted by label. -/
theorem read_views_spec (st : LifxStore) :
    (∀ g : GroupState, g ∈ getSortedGroups st ↔
        g ∈ st.groups.map Prod.snd ∧ g.devices.any (fun sn => isNonSwitch st sn) = true) ∧
    List.Sorted groupOrder (getSortedGroups st) ∧
    (∀ (gid : String) (d : DeviceState), d ∈ getGroupDevices st gid ↔
        ∃ sn ∈ membersOf st gid, lookupA st.devices sn = some d ∧
          d.deviceType ≠ DeviceType.switch) ∧
    (∀ gid : String, List.Sorted labelLe (getGroupDevices st gid)) := by
  refine ⟨?_, ?_, ?_, ?_⟩
  · intro g
    unfold getSortedGroups
    rw [List.mem_insertionSort, List.mem_filter]
  · exact List.sorted_insertionSort groupOrder _
  · intro gid d
    unfold getGroupDevices
    cases hg : lookupA st.groups gid with
    | none => simp [membersOf, hg]
    | some g =>
      have hmem : membersOf st gid = g.devices := by simp [membersOf, hg]
      rw [hmem, List.mem_insertionSort, List.mem_filter, List.mem_filterMap]
      constructor
      · rintro ⟨⟨sn, hsn, hlk⟩, hty⟩
        exact ⟨sn, hsn, hlk, by simpa using hty⟩
      · rintro ⟨sn, hsn, hlk, hty⟩
        exact ⟨⟨sn, hsn, hlk⟩, by simpa using hty⟩
  · intro gid
    unfold getGroupDevices
    cases hg : lookupA st.groups gid with
    | none => exact List.sorted_nil
    | some g => exact List.sorted_insertionSort labelLe _

/-- Witness for C7 (amended): the read-view characterisation evaluated at
the concrete store `stUnknownOnly`. -/
theorem read_views_spec_witness :
    List.Sorted groupOrder (getSortedGroups stUnknownOnly) ∧
    List.Sorted labelLe (getGroupDevices stUnknownOnly "g1") :=
  ⟨(read_views_spec stUnknownOnly).2.1, (read_views_spec stUnknownOnly).2.2.2 "g1"⟩

/-- Counterexample for C7 as stated: the single group of `stUnknownOnly` is
returned by `getSortedGroups`, yet its sole member `x` is not a light-class
device (it is still `unknown`), so the read view does not return only
groups containing a light-class device. -/
theorem getSortedGroups_keeps_unclassified_group :
    getSortedGroups stUnknownOnly = [⟨"g1", "G1", ["x"], true⟩] ∧
    isLightMemberKey stUnknownOnly "x" = false := by
  decide

/-- Claim C8: the tap-tempo window.  After an anchoring tap at `start > 0`,
a second tap `t` milliseconds later re-anchors the tap time and updates the
bpm to `round(60000 / t)` exactly when `200 < t < 2000`; in particular
`t = 1000` yields 60 bpm, while `t = 2001` and `t = 199` leave the bpm
unchanged. -/
theorem tap_tempo_window (s0 : TapState) (start t : Nat) (hs : 0 < start) :
    (tapTempo s0 start).lastTapTime = start ∧
    (tapTempo (tapTempo s0 start) (start + t)).lastTapTime = start + t ∧
    (tapTempo (tapTempo s0 start) (start + t)).bpm =
      (if 200 < t ∧ t < 2000 then round60000 t else (tapTempo s0 start).bpm) ∧
    (tapTempo (tapTempo s0 start) (start + 1000)).bpm = 60 ∧
    (tapTempo (tapTempo s0 start) (start + 2001)).bpm = (tapTempo s0 start).bpm ∧
    (tapTempo (tapTempo s0 start) (start + 199)).bpm = (tapTempo s0 start).bpm := by
  have hanchor : ∀ (s : TapState) (now : Nat), (tapTempo s now).lastTapTime = now := by
    intro s now
    unfold tapTempo
    by_cases h0 : s.lastTapTime > 0
    · simp only [h0, if_true]
      by_cases h2 : 200 < now - s.lastTapTime ∧ now - s.lastTapTime < 2000 <;> simp [h2]
    · simp [h0]
  have h1 : (tapTempo s0 start).lastTapTime = start := hanchor s0 start
  have hgen : ∀ (s1 : TapState) (t2 : Nat), s1.lastTapTime = start →
      (tapTempo s1 (start + t2)).bpm =
        (if 200 < t2 ∧ t2 < 2000 then round60000 t2 else s1.bpm) := by
    intro s1 t2 hl
    simp only [tapTempo, hl, gt_iff_lt, hs, if_true, Nat.add_sub_cancel_left]
    split_ifs <;> rfl
  refine ⟨h1, hanchor _ _, hgen _ t h1, ?_, ?_, ?_⟩
  · rw [hgen _ 1000 h1]
    norm_num [round60000]
  · rw [hgen _ 2001 h1]
    norm_num
  · rw [hgen _ 199 h1]
    norm_num

/-- Witness for C8: from a fresh engine state, a tap at 1 and a tap at 1001
set the tempo to 60 bpm. -/
theorem tap_tempo_window_witness :
    (tapTempo (tapTempo ⟨0, 120⟩ 1) (1 + 1000)).bpm = 60 :=
  (tap_tempo_window ⟨0, 120⟩ 1 1000 (by decide)).2.2.2.1

/-- Counterexample for C9 as stated: re-registering the already known
serial `aabbcc` refreshes `lastSeen` (from 5 to the registration time 10),
so `lastSeen` is not left unchanged by the upsert. -/
theorem reregister_updates_lastSeen :
    ((lookupA stReRegister.devices "aabbcc").map DeviceState.lastSeen) = some 5 ∧
    ((lookupA (registerDevice stReRegister ⟨"aabbcc", 7, "10.0.0.2"⟩ 10).devices
        "aabbcc").map DeviceState.lastSeen) = some 10 := by
  decide

/-- Claim C9 (amended): re-registering an existing identity refreshes only
the stored device handle and `lastSeen`; label, group, groupId, power,
color, online, selected, deviceType and productId are unchanged, no record
is created or removed, records of other identities are untouched, and the
group and selection state is untouched. -/
theorem reregister_frame (st : LifxStore) (dev : Device) (now : Nat) (d : DeviceState)
    (h : lookupA st.devices dev.serialNumber = some d) :
    lookupA (registerDevice st dev now).devices dev.serialNumber =
      some { d with device := dev, lastSeen := now } ∧
    (registerDevice st dev now).devices.map Prod.fst = st.devices.map Prod.fst ∧
    (∀ k : String, k ≠ dev.serialNumber →
      lookupA (registerDevice st dev now).devices k = lookupA st.devices k) ∧
    (registerDevice st dev now).groups = st.groups ∧
    (registerDevice st dev now).selectedDevices = st.selectedDevices := by
  have hbody : registerDevice st dev now =
      setDev (setDev st dev.serialNumber (fun d => { d with device := dev }))
        dev.serialNumber (fun d => { d with lastSeen := now }) := by
    unfold registerDevice
    rw [h]
  refine ⟨?_, ?_, ?_, ?_, ?_⟩
  · rw [hbody, lookupA_setDev_self, lookupA_setDev_self, h]
    rfl
  · rw [hbody]
    unfold setDev
    rw [keys_updateA, keys_updateA]
  · intro k hk
    rw [hbody, lookupA_setDev, if_neg (fun he => hk he.symm),
      lookupA_setDev, if_neg (fun he => hk he.symm)]
  · rw [hbody]
    rfl
  · rw [hbody]
    rfl

/-- Witness for C9 (amended): re-registering `aabbcc` in `stReRegister` at
time 10 with a new transport address yields the old record with only the
handle and `lastSeen` replaced. -/
theorem reregister_frame_witness :
    lookupA (registerDevice stReRegister ⟨"aabbcc", 7, "10.0.0.2"⟩ 10).devices "aabbcc" =
      some { mkDev "aabbcc" "Desk" true true true DeviceType.light 5 with
        device := ⟨"aabbcc", 7, "10.0.0.2"⟩
        lastSeen := 10 } :=
  (reregister_frame stReRegister ⟨"aabbcc", 7, "10.0.0.2"⟩ 10
    (mkDev "aabbcc" "Desk" true true true DeviceType.light 5) (by decide)).1

/-! ## Lemmas for group-membership preservation -/

theorem applyGroup_members_mono (st : LifxStore) (sn : String) (gR : Option GroupResult)
    (gid m : String) (h : m ∈ membersOf st gid) :
    m ∈ membersOf (applyGroup st sn gR) gid := by
  cases gR with
  | none => exact h
  | some g =>
    unfold applyGroup
    simp only [setDev_groups]
    cases hg0 : lookupA st.groups gid with
    | none =>
      rw [membersOf, hg0] at h
      simp at h
    | some grp0 =>
      rw [membersOf, hg0] at h
      simp only [Option.map_some', Option.getD_some] at h
      cases hg : lookupA st.groups g.group with
      | none =>
        rw [membersOf]
        show m ∈ ((lookupA (st.groups ++ [(g.group, ⟨g.group, g.label, [sn], true⟩)])
          gid).map GroupState.devices).getD []
        rw [lookupA_append, hg0]
        simpa using h
      | some grp =>
        by_cases hmem : sn ∈ grp.devices
        · simp only [hmem, if_true]
          simpa [membersOf, hg0, setDev_groups] using h
        · simp only [hmem, if_false]
          rw [membersOf]
          show m ∈ ((lookupA (updateA st.groups g.group
            (fun gr => { gr with devices := gr.devices ++ [sn] })) gid).map
              GroupState.devices).getD []
          rw [lookupA_updateA]
          by_cases hid : g.group = gid
          · rw [if_pos hid, hg0]
            simpa using Or.inl h
          · rw [if_neg hid, hg0]
            simpa using h

theorem qds_members_mono (st : LifxStore) (sn : String) (cR : Option ColorResult)
    (lR : Option String) (gR : Option GroupResult) (vR : Option VersionResult)
    (now : Nat) (gid m : String) (h : m ∈ membersOf st gid) :
    m ∈ membersOf (queryDeviceStateApply st sn cR lR gR vR now) gid := by
  have hgr : (queryDeviceStateApply st sn cR lR gR vR now).groups =
      (applyGroup (applyLabel (applyColor (applyVersion st sn vR) sn cR) sn lR) sn gR).groups :=
    rfl
  have h1 : membersOf (applyLabel (applyColor (applyVersion st sn vR) sn cR) sn lR) gid =
      membersOf st gid := by
    simp [membersOf, applyLabel_groups, applyColor_groups, applyVersion_groups]
  have h2 := applyGroup_members_mono
    (applyLabel (applyColor (applyVersion st sn vR) sn cR) sn lR) sn gR gid m
    (by rw [h1]; exact h)
  simpa [membersOf, hgr] using h2

theorem selectGroup_groups (st : LifxStore) (gid : String) :
    (selectGroup st gid).groups = st.groups := by
  unfold selectGroup
  cases hg : lookupA st.groups gid with
  | none => rfl
  | some g => exact selFold_groups _ g.devices st

theorem toggleGroup_members (st : LifxStore) (gid2 gid : String) :
    membersOf (toggleGroup st gid2) gid = membersOf st gid := by
  unfold toggleGroup setGroupA membersOf
  show ((lookupA (updateA st.groups gid2 (fun g => { g with expanded := !g.expanded }))
    gid).map GroupState.devices).getD [] = _
  rw [lookupA_updateA]
  by_cases hid : gid2 = gid
  · rw [if_pos hid]
    cases lookupA st.groups gid <;> rfl
  · rw [if_neg hid]

theorem powFold_groups (pw : Bool) : ∀ (l : List String) (acc : LifxStore × List (String × Bool)),
    ((l.foldl (powStep pw) acc).1).groups = (acc.1).groups := by
  intro l
  induction l with
  | nil => intro acc; rfl
  | cons a t ih =>
    intro acc
    simp only [List.foldl_cons]
    rw [ih]
    unfold powStep
    split <;> rfl

theorem colFold_groups (c : HSBK) : ∀ (l : List String) (acc : LifxStore × List (String × HSBK)),
    ((l.foldl (colStep c) acc).1).groups = (acc.1).groups := by
  intro l
  induction l with
  | nil => intro acc; rfl
  | cons a t ih =>
    intro acc
    simp only [List.foldl_cons]
    rw [ih]
    unfold colStep
    split <;> rfl

theorem setPowerApply_groups (st : LifxStore) (pw : Bool) :
    ((setPowerApply st pw).1).groups = st.groups := by
  unfold setPowerApply
  split
  · rfl
  · exact powFold_groups pw st.selectedDevices (st, [])

theorem setColorApply_groups (st : LifxStore) (c : HSBK) :
    ((setColorApply st c).1).groups = st.groups := by
  unfold setColorApply
  split
  · rfl
  · exact colFold_groups c st.selectedDevices (st, [])

theorem togglePowerApply_groups (st : LifxStore) :
    ((togglePowerApply st).1).groups = st.groups := by
  unfold togglePowerApply
  split
  · rfl
  · exact setPowerApply_groups st _

/-- Claim C10: group membership is append-only.  Every store operation
preserves existing group memberships (a serial number in a group's member
list stays there); and when device `x`, already a member of `g1`, later
reports group `g2`, it ends up a member of both groups at once. -/
theorem group_membership_append_only :
    (∀ (st : LifxStore) (sn : String) (cR : Option ColorResult) (lR : Option String)
        (gR : Option GroupResult) (vR : Option VersionResult) (now : Nat) (gid m : String),
      m ∈ membersOf st gid → m ∈ membersOf (queryDeviceStateApply st sn cR lR gR vR now) gid) ∧
    (∀ (st : LifxStore) (dev : Device) (now : Nat) (gid m : String),
      m ∈ membersOf st gid → m ∈ membersOf (registerDevice st dev now) gid) ∧
    (∀ (st : LifxStore) (sn gid m : String),
      m ∈ membersOf st gid → m ∈ membersOf (toggleSelect st sn) gid) ∧
    (∀ (st : LifxStore) (sn gid m : String),
      m ∈ membersOf st gid → m ∈ membersOf (selectDevice st sn) gid) ∧
    (∀ (st : LifxStore) (gid m : String),
      m ∈ membersOf st gid → m ∈ membersOf (selectAll st) gid) ∧
    (∀ (st : LifxStore) (gid m : String),
      m ∈ membersOf st gid → m ∈ membersOf (selectNone st) gid) ∧
    (∀ (st : LifxStore) (gid2 gid m : String),
      m ∈ membersOf st gid → m ∈ membersOf (selectGroup st gid2) gid) ∧
    (∀ (st : LifxStore) (gid2 gid m : String),
      m ∈ membersOf st gid → m ∈ membersOf (toggleGroup st gid2) gid) ∧
    (∀ (st : LifxStore) (c : HSBK) (gid m : String),
      m ∈ membersOf st gid → m ∈ membersOf (setColorApply st c).1 gid) ∧
    (∀ (st : LifxStore) (pw : Bool) (gid m : String),
      m ∈ membersOf st gid → m ∈ membersOf (setPowerApply st pw).1 gid) ∧
    (∀ (st : LifxStore) (gid m : String),
      m ∈ membersOf st gid → m ∈ membersOf (togglePowerApply st).1 gid) ∧
    (∀ (st : LifxStore) (sns : List String)
        (res : String →
          Option ColorResult × Option String × Option GroupResult × Option VersionResult)
        (now : Nat) (gid m : String),
      m ∈ membersOf st gid → m ∈ membersOf (refreshAllApply st sns res now) gid) ∧
    ("x" ∈ membersOf (queryDeviceStateApply stOneGroup "x" none none
        (some ⟨"g2", "G2"⟩) none 7) "g1" ∧
     "x" ∈ membersOf (queryDeviceStateApply stOneGroup "x" none none
        (some ⟨"g2", "G2"⟩) none 7) "g2") := by
  refine ⟨qds_members_mono, ?_, ?_, ?_, ?_, ?_, ?_, ?_, ?_, ?_, ?_, ?_, by decide⟩
  · intro st dev now gid m h
    cases hl : lookupA st.devices dev.serialNumber with
    | none =>
      have hb : registerDevice st dev now =
          { st with devices := st.devices ++ [(dev.serialNumber, freshDeviceState dev now)] } := by
        unfold registerDevice
        rw [hl]
      rw [hb] at *
      exact h
    | some d0 =>
      have hb : registerDevice st dev now =
          setDev (setDev st dev.serialNumber (fun d => { d with device := dev }))
            dev.serialNumber (fun d => { d with lastSeen := now }) := by
        unfold registerDevice
        rw [hl]
      rw [hb]
      exact h
  · intro st sn gid m h
    exact h
  · intro st sn gid m h
    exact h
  · intro st gid m h
    exact h
  · intro st gid m h
    exact h
  · intro st gid2 gid m h
    simpa [membersOf, selectGroup_groups] using h
  · intro st gid2 gid m h
    rw [toggleGroup_members]
    exact h
  · intro st c gid m h
    simpa [membersOf, setColorApply_groups] using h
  · intro st pw gid m h
    simpa [membersOf, setPowerApply_groups] using h
  · intro st gid m h
    simpa [membersOf, togglePowerApply_groups] using h
  · intro st sns res now gid m h
    unfold refreshAllApply
    have hstep : ∀ (l : List String) (s : LifxStore), m ∈ membersOf s gid →
        m ∈ membersOf (l.foldl (fun s sn => queryDeviceStateApply s sn (res sn).1
          (res sn).2.1 (res sn).2.2.1 (res sn).2.2.2 now) s) gid := by
      intro l
      induction l with
      | nil => intro s hs; exact hs
      | cons a t ih =>
        intro s hs
        simp only [List.foldl_cons]
        exact ih _ (qds_members_mono _ _ _ _ _ _ _ _ _ hs)
    exact hstep sns { st with isScanning := true } h

/-- Witness for C10: membership of `x` in `g1` survives a selection toggle. -/
theorem group_membership_append_only_witness :
    "x" ∈ membersOf (toggleSelect stOneGroup "x") "g1" :=
  group_membership_append_only.2.2.1 stOneGroup "x" "g1" "x" (by decide)

end LifxTui
